import Mathlib

/-!
Shallow embedding of the attachment-aware chat session manager of the
Claude code-assistant editor extension (source file `extension.ts`, full
variant): the static model catalog and capability probe, the message-send
error mapping, the attachment store (files, images, auto-attach tracking)
and the chat-message content composition.

External effects (the HTTP transport, the file-selection dialogs, file
reads and the focused-document query) are modelled as explicit inputs:
a network call becomes an outcome value passed to the function, and a
dialog selection becomes the selected file data passed as parameters.
A JavaScript `throw` site becomes an `Except` error constructor; a
function with no uncaught throw is embedded as a total function.
-/

/-- `ModelInfo` from the source: `{id, name, isPaid}`. -/
structure ModelInfo where
  id : String
  name : String
  isPaid : Bool
deriving DecidableEq

/-- The static model catalog `availableModels` of class `ClaudeAPI`,
in source order: 2 free entries followed by 7 paid entries. -/
def availableModels : List ModelInfo :=
  [ { id := "claude-3-5-haiku-20241022", name := "Claude 3.5 Haiku", isPaid := false },
    { id := "claude-3-haiku-20240307", name := "Claude 3 Haiku", isPaid := false },
    { id := "claude-opus-4.1-20250805", name := "Claude Opus 4.1", isPaid := true },
    { id := "claude-opus-4-20250514", name := "Claude Opus 4", isPaid := true },
    { id := "claude-sonnet-4-20250514", name := "Claude Sonnet 4", isPaid := true },
    { id := "claude-3-7-sonnet-20250219", name := "Claude 3.7 Sonnet", isPaid := true },
    { id := "claude-3-5-sonnet-20241022", name := "Claude 3.5 Sonnet", isPaid := true },
    { id := "claude-3-opus-20240229", name := "Claude 3 Opus", isPaid := true },
    { id := "claude-3-sonnet-20240229", name := "Claude 3 Sonnet", isPaid := true } ]

/-- The free-tier subset of the catalog, as the source computes it:
`this.availableModels.filter(m => !m.isPaid)`. -/
def freeModels : List ModelInfo :=
  availableModels.filter (fun m => !m.isPaid)

/-- Outcome of the probe request issued by `checkApiKeyAccess`
(`axios.post`): success, or failure carrying `error.response?.status`
(`none` when there is no HTTP response, e.g. a network error). -/
inductive ProbeOutcome where
  | success
  | failure (status : Option Nat)
deriving DecidableEq

/-- `ClaudeAPI.checkApiKeyAccess`. The second component instruments
whether the probe request was issued (`axios.post` reached): the source
returns the free models immediately when `this.apiKey` is falsy (the
empty string), issues the probe otherwise, returns the full catalog on
success, and returns the free models both on a 401 failure and on any
other failure (the `catch` block returns in every branch, so the call
never throws to its caller — embedded here as a total function). -/
def checkApiKeyAccess (apiKey : String) (net : ProbeOutcome) :
    List ModelInfo × Bool :=
  if apiKey = "" then
    (availableModels.filter (fun m => !m.isPaid), false)
  else
    match net with
    | .success => (availableModels, true)
    | .failure status =>
        if status = some 401 then
          (availableModels.filter (fun m => !m.isPaid), true)
        else
          (availableModels.filter (fun m => !m.isPaid), true)

/-- A content block of a `ClaudeMessage` array content:
a text block carrying `text`, or an image block carrying a base64
source with `media_type` and `data`. -/
inductive ContentBlock where
  | text (t : String)
  | image (mediaType : String) (data : String)
deriving DecidableEq

/-- The `content` field of a `ClaudeMessage`: a plain string or an array
of content blocks. -/
inductive MessageContent where
  | str (s : String)
  | blocks (bs : List ContentBlock)
deriving DecidableEq

/-- The `role` field of a `ClaudeMessage`. -/
inductive Role where
  | user
  | assistant
deriving DecidableEq

/-- `ClaudeMessage` from the source. -/
structure ClaudeMessage where
  role : Role
  content : MessageContent
deriving DecidableEq

/-- The typed failure taxonomy of `ClaudeAPI.sendMessage`: one
constructor per `throw` site, in source order. `configurationError` is
the missing-credential throw before the request; the others are the
mapping of the failed request in the `catch` block. `transportError`
carries the thrown message, `API Error:` followed by the underlying
error message. -/
inductive SendError where
  | configurationError
  | authError
  | throttledError
  | planRequiredError
  | transportError (message : String)
deriving DecidableEq

/-- Outcome of the `axios.post` inside `sendMessage`: success carrying
`response.data.content[0].text`, or failure carrying
`error.response?.status` and `error.message`. -/
inductive SendOutcome where
  | success (text : String)
  | failure (status : Option Nat) (message : String)
deriving DecidableEq

/-- The model the request uses: `selectedModel || this.model`
(JavaScript `||`, so an empty-string selection also falls back). -/
def modelToUse (defaultModel : String) (selectedModel : Option String) : String :=
  match selectedModel with
  | none => defaultModel
  | some m => if m = "" then defaultModel else m

/-- `ClaudeAPI.sendMessage`. The second component instruments whether
the request was issued. With no API key it throws the configuration
error before any request; otherwise the `catch` block maps a 401
failure to the invalid-key error, 429 to the rate-limit error, 403 to
the access-denied (paid plan) error, and anything else to
`API Error: ${error.message}`. -/
def sendMessage (apiKey : String) (messages : List ClaudeMessage)
    (selectedModel : Option String) (net : SendOutcome) :
    Except SendError String × Bool :=
  if apiKey = "" then
    (.error .configurationError, false)
  else
    match net with
    | .success t => (.ok t, true)
    | .failure status msg =>
        if status = some 401 then (.error .authError, true)
        else if status = some 429 then (.error .throttledError, true)
        else if status = some 403 then (.error .planRequiredError, true)
        else (.error (.transportError ("API Error: " ++ msg)), true)

/-- `AttachedFile` from the source: `{name, content, language?, path?}`. -/
structure AttachedFile where
  name : String
  content : String
  language : Option String
  path : Option String
deriving DecidableEq

/-- `AttachedImage` from the source: `{name, data, mediaType}`. -/
structure AttachedImage where
  name : String
  data : String
  mediaType : String
deriving DecidableEq

/-- The mutable attachment state of class `ClaudeCodeAssistant`:
`attachedFiles`, `attachedImages` and `currentActiveFile` (the tracked
auto-attached path, `undefined` initially). -/
structure AssistantState where
  attachedFiles : List AttachedFile
  attachedImages : List AttachedImage
  currentActiveFile : Option String
deriving DecidableEq

/-- The state at construction: both lists empty, no tracked path. -/
def initState : AssistantState :=
  { attachedFiles := [], attachedImages := [], currentActiveFile := none }

/-- The `langMap` table of `getLanguageFromExtension`. -/
def langMap : List (String × String) :=
  [ (".js", "javascript"), (".ts", "typescript"), (".py", "python"),
    (".java", "java"), (".cpp", "cpp"), (".c", "c"), (".cs", "csharp"),
    (".php", "php"), (".rb", "ruby"), (".go", "go"), (".rs", "rust"),
    (".swift", "swift"), (".json", "json"), (".xml", "xml"),
    (".yaml", "yaml"), (".yml", "yaml"), (".md", "markdown") ]

/-- `getLanguageFromExtension`: table lookup defaulting to `text`. -/
def getLanguageFromExtension (ext : String) : String :=
  (langMap.lookup ext).getD "text"

/-- The `mediaMap` table of `getMediaType`. -/
def mediaMap : List (String × String) :=
  [ (".png", "image/png"), (".jpg", "image/jpeg"), (".jpeg", "image/jpeg"),
    (".gif", "image/gif"), (".webp", "image/webp") ]

/-- `getMediaType`: table lookup defaulting to `image/jpeg`. -/
def getMediaType (ext : String) : String :=
  (mediaMap.lookup ext).getD "image/jpeg"

/-- `attachCurrentFile` (auto-attach on focus change). The focused
document is passed as its path, basename, language id and text. Same
path as the tracked one: early return. Otherwise the source filters out
entries whose `path` equals the tracked path (strict `!==`, so an
absent tracked path only matches an absent entry path), pushes the new
entry, and updates the tracked path. -/
def attachCurrentFile (filePath fileName language content : String)
    (s : AssistantState) : AssistantState :=
  if s.currentActiveFile = some filePath then
    s
  else
    { s with
      attachedFiles :=
        s.attachedFiles.filter (fun f => f.path != s.currentActiveFile) ++
          [{ name := fileName, content := content,
             language := some language, path := some filePath }],
      currentActiveFile := some filePath }

/-- `handleFileAttachment`, after a successful dialog selection and file
read (the selected file is passed as its path, basename, extension and
content). Returns the new state and whether the file was attached: a
path already present (`find(f => f.path === filePath)`) is rejected with
a warning and changes nothing; otherwise the entry is pushed with the
language derived from the extension. -/
def handleFileAttachment (filePath fileName ext content : String)
    (s : AssistantState) : AssistantState × Bool :=
  if s.attachedFiles.any (fun f => f.path == some filePath) then
    (s, false)
  else
    ({ s with
       attachedFiles := s.attachedFiles ++
         [{ name := fileName, content := content,
            language := some (getLanguageFromExtension ext),
            path := some filePath }] }, true)

/-- `handleImageAttachment`, after a successful dialog selection and
read (the selected image is passed as its basename, extension and
base64 data); `maxImages` is the configuration value read at the start
of the call (default 3). At or above the limit the call is rejected
with a warning and changes nothing; otherwise the entry is pushed with
the media type derived from the lowercased extension. No
de-duplication by name is performed. -/
def handleImageAttachment (maxImages : Nat) (fileName ext data : String)
    (s : AssistantState) : AssistantState × Bool :=
  if maxImages ≤ s.attachedImages.length then
    (s, false)
  else
    ({ s with
       attachedImages := s.attachedImages ++
         [{ name := fileName, data := data,
            mediaType := getMediaType ext.toLower }] }, true)

/-- `removeAttachedFile`: filter out entries whose `path` equals the
given path (strict `===` against a string, so only present paths
match), and clear the tracked path when it equals the given path. -/
def removeAttachedFile (filePath : String) (s : AssistantState) :
    AssistantState :=
  { s with
    attachedFiles := s.attachedFiles.filter (fun f => f.path != some filePath),
    currentActiveFile :=
      if s.currentActiveFile = some filePath then none
      else s.currentActiveFile }

/-- `removeAttachedImage`: filter out entries with the given name. -/
def removeAttachedImage (imageName : String) (s : AssistantState) :
    AssistantState :=
  { s with
    attachedImages := s.attachedImages.filter (fun i => i.name != imageName) }

/-- JavaScript template-literal rendering of a `string | undefined`
value: `undefined` prints as the text `undefined`. -/
def renderOpt : Option String → String
  | some s => s
  | none => "undefined"

/-- One iteration of the `for (const file of this.attachedFiles)` loop
in `handleChatMessage`: the string appended to `fileContext` for one
attached file. -/
def fileBlock (f : AttachedFile) : String :=
  "\n**" ++ f.name ++ "** (" ++ renderOpt f.language ++ "):\n```" ++
    renderOpt f.language ++ "\n" ++ f.content ++ "\n```\n"

/-- The full `fileContext` string built by the loop, starting from
the attached-files header line. -/
def fileContext (files : List AttachedFile) : String :=
  files.foldl (fun acc f => acc ++ fileBlock f) "\n\n**Attached Files:**\n"

/-- The text of the outgoing turn after file augmentation in
`handleChatMessage`: `text += fileContext` when any files are attached. -/
def augmentedText (text : String) (files : List AttachedFile) : String :=
  if 0 < files.length then text ++ fileContext files else text

/-- The content of the outgoing turn built by `handleChatMessage` from
the user text and the current attachment state: the (possibly
file-augmented) text alone when no images are attached, otherwise one
text block followed by one image block per attached image in order. -/
def composeContent (text : String) (files : List AttachedFile)
    (images : List AttachedImage) : MessageContent :=
  if 0 < images.length then
    .blocks (ContentBlock.text (augmentedText text files) ::
      images.map (fun img => ContentBlock.image img.mediaType img.data))
  else
    .str (augmentedText text files)

/-- The single-turn message list `handleChatMessage` sends. -/
def chatMessages (text : String) (s : AssistantState) : List ClaudeMessage :=
  [{ role := .user,
     content := composeContent text s.attachedFiles s.attachedImages }]

/-- One attachment-store operation, as dispatched by the webview
message handler and the focus-change watcher. External inputs (the
focused document, the dialog selection, the `maxImages` configuration
read by the image handler) are carried by the operation. -/
inductive Op where
  | autoAttach (filePath fileName language content : String)
  | attachFile (filePath fileName ext content : String)
  | attachImage (maxImages : Nat) (fileName ext data : String)
  | removeFile (filePath : String)
  | removeImage (imageName : String)
deriving DecidableEq

/-- The state transition of one operation. -/
def applyOp (op : Op) (s : AssistantState) : AssistantState :=
  match op with
  | .autoAttach fp fn lang c => attachCurrentFile fp fn lang c s
  | .attachFile fp fn ext c => (handleFileAttachment fp fn ext c s).1
  | .attachImage m fn ext d => (handleImageAttachment m fn ext d s).1
  | .removeFile fp => removeAttachedFile fp s
  | .removeImage n => removeAttachedImage n s

/-- Run a sequence of operations from a state. -/
def runOps (ops : List Op) (s : AssistantState) : AssistantState :=
  ops.foldl (fun s op => applyOp op s) s

/-- A state is reachable when some operation sequence produces it from
the construction state. -/
def Reachable (s : AssistantState) : Prop :=
  ∃ ops : List Op, runOps ops initState = s

/-- No two attached-file entries share an `path` value. -/
def pathsUnique (files : List AttachedFile) : Prop :=
  files.Pairwise (fun f g => f.path ≠ g.path)

/-- Whether an operation is the auto-attach (focus-change) one. -/
def Op.isAutoAttach : Op → Bool
  | .autoAttach _ _ _ _ => true
  | _ => false

/-- Whether every image-attach operation in the list carries the given
`maxImages` configuration value (other operations qualify trivially). -/
def opUsesMax (m : Nat) : Op → Bool
  | .attachImage m' _ _ _ => m' = m
  | _ => true

/-- When a path is tracked as auto-attached, some store entry carries
that path. This holds in every reachable state and is what makes
removal of an absent path a strict no-op. -/
def trackedPresent (s : AssistantState) : Prop :=
  ∀ p, s.currentActiveFile = some p → ∃ f ∈ s.attachedFiles, f.path = some p

/-- A concrete sample state: one manually attached file at a path and
one attached image, used to exercise duplicate image names. -/
def dupSampleState : AssistantState :=
  { attachedFiles :=
      [{ name := "a.py", content := "x",
         language := some "python", path := some "/a" }],
    attachedImages :=
      [{ name := "i.png", data := "D1", mediaType := "image/png" }],
    currentActiveFile := none }

theorem runOps_nil (s : AssistantState) : runOps [] s = s := rfl

theorem runOps_cons (op : Op) (ops : List Op) (s : AssistantState) :
    runOps (op :: ops) s = runOps ops (applyOp op s) := rfl

/-- C2: `checkApiKeyAccess` never raises (it is a total classification:
every outcome yields either the full catalog or the free subset); with
a credential present, a successful probe yields the full catalog, a
401 failure yields exactly the free-tier subset, and any other failure
also yields the free-tier subset, which is the `!isPaid` filter of the
catalog and has 2 of the 9 catalog entries. -/
theorem claim_C2_probe_classification (apiKey : String) (net : ProbeOutcome) :
    ((checkApiKeyAccess apiKey net).1 = availableModels ∨
      (checkApiKeyAccess apiKey net).1 = freeModels) ∧
    (apiKey ≠ "" → net = ProbeOutcome.success →
      (checkApiKeyAccess apiKey net).1 = availableModels) ∧
    (apiKey ≠ "" → ∀ status, net = ProbeOutcome.failure status →
      (checkApiKeyAccess apiKey net).1 = freeModels) ∧
    freeModels = availableModels.filter (fun m => !m.isPaid) ∧
    freeModels.length = 2 ∧ availableModels.length = 9 := by
  refine ⟨?_, ?_, ?_, rfl, rfl, rfl⟩
  · by_cases hk : apiKey = ""
    · exact Or.inr (by simp [checkApiKeyAccess, hk, freeModels])
    · cases net with
      | success => exact Or.inl (by simp [checkApiKeyAccess, hk])
      | failure status =>
          refine Or.inr ?_
          by_cases h4 : status = some 401 <;>
            simp [checkApiKeyAccess, hk, h4, freeModels]
  · intro hk hnet
    subst hnet
    simp [checkApiKeyAccess, hk]
  · intro hk status hnet
    subst hnet
    by_cases h4 : status = some 401 <;>
      simp [checkApiKeyAccess, hk, h4, freeModels]

theorem claim_C2_probe_classification_witness :
    (("sk-key" : String) ≠ "") ∧
    (checkApiKeyAccess "sk-key" (ProbeOutcome.failure (some 401))).1 =
      freeModels ∧
    (checkApiKeyAccess "sk-key" ProbeOutcome.success).1 = availableModels :=
  ⟨by decide,
   (claim_C2_probe_classification "sk-key"
       (ProbeOutcome.failure (some 401))).2.2.1 (by decide) (some 401) rfl,
   (claim_C2_probe_classification "sk-key" ProbeOutcome.success).2.1
     (by decide) rfl⟩

/-- C10: with no credential set (empty key), `checkApiKeyAccess`
returns exactly the free-tier subset without issuing the probe request
(instrumentation bit `false`); with a credential present the probe is
always issued. -/
theorem claim_C10_no_probe_without_key (net : ProbeOutcome) (apiKey : String) :
    checkApiKeyAccess "" net = (freeModels, false) ∧
    freeModels = availableModels.filter (fun m => !m.isPaid) ∧
    (apiKey ≠ "" → (checkApiKeyAccess apiKey net).2 = true) := by
  refine ⟨by simp [checkApiKeyAccess, freeModels], rfl, ?_⟩
  intro hk
  cases net with
  | success => simp [checkApiKeyAccess, hk]
  | failure status =>
      by_cases h4 : status = some 401 <;> simp [checkApiKeyAccess, hk, h4]

theorem claim_C10_no_probe_without_key_witness :
    checkApiKeyAccess "" ProbeOutcome.success = (freeModels, false) ∧
    (("sk-key" : String) ≠ "") ∧
    (checkApiKeyAccess "sk-key" ProbeOutcome.success).2 = true :=
  ⟨(claim_C10_no_probe_without_key ProbeOutcome.success "sk-key").1,
   by decide,
   (claim_C10_no_probe_without_key ProbeOutcome.success "sk-key").2.2
     (by decide)⟩

/-- C3: `sendMessage` with no credential fails with the configuration
error before any request is issued (instrumentation bit `false`);
otherwise a 401 failure maps to the auth error, 429 to the throttled
error, 403 to the plan-required error, and any other failure to the
transport error carrying the underlying message. -/
theorem claim_C3_send_error_mapping (apiKey : String)
    (messages : List ClaudeMessage) (selectedModel : Option String)
    (net : SendOutcome) :
    (apiKey = "" →
      sendMessage apiKey messages selectedModel net =
        (.error .configurationError, false)) ∧
    (apiKey ≠ "" →
      (∀ msg, net = SendOutcome.failure (some 401) msg →
        sendMessage apiKey messages selectedModel net =
          (.error .authError, true)) ∧
      (∀ msg, net = SendOutcome.failure (some 429) msg →
        sendMessage apiKey messages selectedModel net =
          (.error .throttledError, true)) ∧
      (∀ msg, net = SendOutcome.failure (some 403) msg →
        sendMessage apiKey messages selectedModel net =
          (.error .planRequiredError, true)) ∧
      (∀ status msg, net = SendOutcome.failure status msg →
        status ≠ some 401 → status ≠ some 429 → status ≠ some 403 →
        sendMessage apiKey messages selectedModel net =
          (.error (.transportError ("API Error: " ++ msg)), true))) := by
  constructor
  · intro hk
    simp [sendMessage, hk]
  · intro hk
    refine ⟨?_, ?_, ?_, ?_⟩
    · intro msg hnet
      subst hnet
      simp [sendMessage, hk]
    · intro msg hnet
      subst hnet
      simp [sendMessage, hk]
    · intro msg hnet
      subst hnet
      simp [sendMessage, hk]
    · intro status msg hnet h1 h2 h3
      subst hnet
      simp [sendMessage, hk, h1, h2, h3]

theorem claim_C3_send_error_mapping_witness :
    sendMessage "" [] none (SendOutcome.failure (some 401) "m") =
      (.error .configurationError, false) ∧
    (("sk-key" : String) ≠ "") ∧
    sendMessage "sk-key" [] none (SendOutcome.failure (some 401) "m") =
      (.error .authError, true) :=
  ⟨(claim_C3_send_error_mapping "" [] none
      (SendOutcome.failure (some 401) "m")).1 rfl,
   by decide,
   ((claim_C3_send_error_mapping "sk-key" [] none
      (SendOutcome.failure (some 401) "m")).2 (by decide)).1 "m" rfl⟩

/-- C5: with zero attached files and zero attached images the composed
turn content is the user text verbatim. -/
theorem claim_C5_compose_identity (userText : String) (s : AssistantState)
    (hf : s.attachedFiles = []) (hi : s.attachedImages = []) :
    composeContent userText s.attachedFiles s.attachedImages =
      MessageContent.str userText ∧
    chatMessages userText s =
      [{ role := Role.user, content := MessageContent.str userText }] := by
  constructor
  · simp [composeContent, augmentedText, hf, hi]
  · simp [chatMessages, composeContent, augmentedText, hf, hi]

theorem claim_C5_compose_identity_witness :
    initState.attachedFiles = [] ∧ initState.attachedImages = [] ∧
    composeContent "hello" initState.attachedFiles initState.attachedImages =
      MessageContent.str "hello" :=
  ⟨rfl, rfl, (claim_C5_compose_identity "hello" initState rfl rfl).1⟩

/-- C4: with N ≥ 1 attached images the composed content is a block
list: one text block holding the (file-)augmented user text, followed
by one image block per attached image in attachment order, each
carrying the media type and base64 data of that image — N+1 blocks in
all. -/
theorem claim_C4_compose_images (userText : String)
    (files : List AttachedFile) (images : List AttachedImage)
    (h : 0 < images.length) :
    composeContent userText files images =
      MessageContent.blocks
        (ContentBlock.text (augmentedText userText files) ::
          images.map (fun img => ContentBlock.image img.mediaType img.data)) ∧
    (ContentBlock.text (augmentedText userText files) ::
        images.map (fun img =>
          ContentBlock.image img.mediaType img.data)).length =
      images.length + 1 := by
  constructor
  · simp [composeContent, h]
  · simp

theorem claim_C4_compose_images_witness :
    0 < ([{ name := "i.png", data := "DATA", mediaType := "image/png" }] :
        List AttachedImage).length ∧
    composeContent "hi" []
        [{ name := "i.png", data := "DATA", mediaType := "image/png" }] =
      MessageContent.blocks
        [ContentBlock.text (augmentedText "hi" []),
         ContentBlock.image "image/png" "DATA"] :=
  ⟨by decide,
   (claim_C4_compose_images "hi" []
      [{ name := "i.png", data := "DATA", mediaType := "image/png" }]
      (by decide)).1⟩

/-- C6: auto-attach of the document whose path equals the tracked path
is a no-op; with a different path it removes the entries whose path
equals the previously tracked path, appends the new entry built from
the document, and tracks the new path; and two consecutive auto-attach
calls with the same path leave the state of the first call unchanged. -/
theorem claim_C6_auto_attach (filePath fileName language content
    fn2 lang2 c2 : String) (s : AssistantState) :
    (s.currentActiveFile = some filePath →
      attachCurrentFile filePath fileName language content s = s) ∧
    (s.currentActiveFile ≠ some filePath →
      attachCurrentFile filePath fileName language content s =
        { s with
          attachedFiles :=
            s.attachedFiles.filter (fun f => f.path != s.currentActiveFile) ++
              [{ name := fileName, content := content,
                 language := some language, path := some filePath }],
          currentActiveFile := some filePath }) ∧
    attachCurrentFile filePath fn2 lang2 c2
        (attachCurrentFile filePath fileName language content s) =
      attachCurrentFile filePath fileName language content s := by
  refine ⟨?_, ?_, ?_⟩
  · intro h
    simp [attachCurrentFile, h]
  · intro h
    simp [attachCurrentFile, h]
  · by_cases h : s.currentActiveFile = some filePath
    · simp [attachCurrentFile, h]
    · simp [attachCurrentFile, h]

theorem claim_C6_auto_attach_witness :
    (initState.currentActiveFile ≠ some "/a") ∧
    attachCurrentFile "/a" "a.py" "python" "print(1)" initState =
      { initState with
        attachedFiles :=
          [{ name := "a.py", content := "print(1)",
             language := some "python", path := some "/a" }],
        currentActiveFile := some "/a" } ∧
    attachCurrentFile "/a" "b.py" "python" "x"
        (attachCurrentFile "/a" "a.py" "python" "print(1)" initState) =
      attachCurrentFile "/a" "a.py" "python" "print(1)" initState :=
  ⟨by decide,
   (claim_C6_auto_attach "/a" "a.py" "python" "print(1)" "b.py" "python" "x"
      initState).2.1 (by decide),
   (claim_C6_auto_attach "/a" "a.py" "python" "print(1)" "b.py" "python" "x"
      initState).2.2⟩

theorem applyOp_images_le (m : Nat) (op : Op) (hop : opUsesMax m op = true)
    (s : AssistantState) (hs : s.attachedImages.length ≤ m) :
    (applyOp op s).attachedImages.length ≤ m := by
  cases op with
  | autoAttach fp fn lang c =>
      by_cases h : s.currentActiveFile = some fp <;>
        simp [applyOp, attachCurrentFile, h, hs]
  | attachFile fp fn ext c =>
      by_cases h : s.attachedFiles.any (fun f => f.path == some fp) <;>
        simp [applyOp, handleFileAttachment, h, hs]
  | attachImage m' fn ext d =>
      have hm : m' = m := by simpa [opUsesMax] using hop
      rw [hm]
      by_cases h : m ≤ s.attachedImages.length
      · simpa [applyOp, handleImageAttachment, h] using hs
      · have hlt : s.attachedImages.length < m := Nat.lt_of_not_le h
        simp [applyOp, handleImageAttachment, h]
        omega
  | removeFile fp => simpa [applyOp, removeAttachedFile] using hs
  | removeImage n =>
      refine le_trans ?_ hs
      simpa [applyOp, removeAttachedImage] using
        List.length_filter_le (fun i => i.name != n) s.attachedImages

theorem runOps_images_le (m : Nat) (ops : List Op)
    (hm : ∀ op ∈ ops, opUsesMax m op = true) (s : AssistantState)
    (hs : s.attachedImages.length ≤ m) :
    (runOps ops s).attachedImages.length ≤ m := by
  induction ops generalizing s with
  | nil => simpa [runOps] using hs
  | cons op ops ih =>
      rw [runOps_cons]
      exact ih (fun o ho => hm o (List.mem_cons_of_mem _ ho)) _
        (applyOp_images_le m op (hm op (List.mem_cons_self op ops)) s hs)

/-- C7: under any operation sequence in which every image attachment
reads the same `maxImages` configuration value, the image count never
exceeds that value; and any image attachment attempted at or above the
limit is rejected and changes nothing. -/
theorem claim_C7_image_limit (m : Nat) (ops : List Op)
    (hm : ∀ op ∈ ops, opUsesMax m op = true) :
    (runOps ops initState).attachedImages.length ≤ m ∧
    (∀ (s : AssistantState) (fn ext d : String),
      m ≤ s.attachedImages.length →
      handleImageAttachment m fn ext d s = (s, false)) := by
  constructor
  · exact runOps_images_le m ops hm initState (by simp [initState])
  · intro s fn ext d h
    simp [handleImageAttachment, h]

theorem claim_C7_image_limit_witness :
    (∀ op ∈ ([Op.attachImage 1 "a.png" ".png" "d1",
              Op.attachImage 1 "b.png" ".png" "d2"] : List Op),
      opUsesMax 1 op = true) ∧
    (runOps [Op.attachImage 1 "a.png" ".png" "d1",
             Op.attachImage 1 "b.png" ".png" "d2"]
        initState).attachedImages.length ≤ 1 :=
  ⟨by decide,
   (claim_C7_image_limit 1
      [Op.attachImage 1 "a.png" ".png" "d1",
       Op.attachImage 1 "b.png" ".png" "d2"] (by decide)).1⟩

/-- C9: below the image limit, attaching an image whose name equals an
already-attached image name succeeds (the entry is appended with no
de-duplication), leaving at least two entries with that name in the
store — unlike the file-attachment path, which rejects a duplicate
path. -/
theorem claim_C9_image_duplicate_names (m : Nat)
    (fileName ext data : String) (s : AssistantState)
    (hlt : s.attachedImages.length < m)
    (hdup : ∃ i ∈ s.attachedImages, i.name = fileName) :
    (handleImageAttachment m fileName ext data s).2 = true ∧
    (handleImageAttachment m fileName ext data s).1.attachedImages =
      s.attachedImages ++
        [{ name := fileName, data := data,
           mediaType := getMediaType ext.toLower }] ∧
    2 ≤ ((handleImageAttachment m fileName ext data
          s).1.attachedImages.filter (fun i => i.name == fileName)).length ∧
    (∀ (fp fn ex c : String), (∃ f ∈ s.attachedFiles, f.path = some fp) →
      handleFileAttachment fp fn ex c s = (s, false)) := by
  have hcond : ¬ m ≤ s.attachedImages.length := Nat.not_le.mpr hlt
  have himgs : (handleImageAttachment m fileName ext data
      s).1.attachedImages =
      s.attachedImages ++
        [{ name := fileName, data := data,
           mediaType := getMediaType ext.toLower }] := by
    simp [handleImageAttachment, hcond]
  refine ⟨by simp [handleImageAttachment, hcond], himgs, ?_, ?_⟩
  · obtain ⟨i, hi, hname⟩ := hdup
    have hmem : i ∈ s.attachedImages.filter (fun i => i.name == fileName) :=
      List.mem_filter.mpr ⟨hi, by simp [hname]⟩
    have hpos : 0 <
        (s.attachedImages.filter (fun i => i.name == fileName)).length :=
      List.length_pos_of_mem hmem
    rw [himgs, List.filter_append]
    simp only [List.length_append]
    simp
    omega
  · intro fp fn ex c hex
    obtain ⟨f, hf, hfp⟩ := hex
    have hany : s.attachedFiles.any (fun f => f.path == some fp) = true :=
      List.any_eq_true.mpr ⟨f, hf, by simp [hfp]⟩
    simp [handleFileAttachment, hany]

theorem pathsUnique_applyOp (op : Op) (hop : op.isAutoAttach = false)
    (s : AssistantState) (h : pathsUnique s.attachedFiles) :
    pathsUnique (applyOp op s).attachedFiles := by
  cases op with
  | autoAttach fp fn lang c => simp [Op.isAutoAttach] at hop
  | attachFile fp fn ext c =>
      by_cases hdup : s.attachedFiles.any (fun f => f.path == some fp)
      · simpa [applyOp, handleFileAttachment, hdup] using h
      · have hnew : ∀ f ∈ s.attachedFiles, f.path ≠ some fp := by
          intro f hf hcontra
          exact hdup (List.any_eq_true.mpr ⟨f, hf, by simp [hcontra]⟩)
        have hgoal : (applyOp (Op.attachFile fp fn ext c) s).attachedFiles =
            s.attachedFiles ++
              [{ name := fn, content := c,
                 language := some (getLanguageFromExtension ext),
                 path := some fp }] := by
          simp [applyOp, handleFileAttachment, hdup]
        rw [pathsUnique, hgoal]
        refine List.pairwise_append.mpr ⟨h, by simp, ?_⟩
        intro a ha b hb
        simp only [List.mem_singleton] at hb
        subst hb
        exact hnew a ha
  | attachImage m fn ext d =>
      by_cases hc : m ≤ s.attachedImages.length <;>
        simpa [applyOp, handleImageAttachment, hc] using h
  | removeFile fp =>
      have : (applyOp (Op.removeFile fp) s).attachedFiles =
          s.attachedFiles.filter (fun f => f.path != some fp) := by
        simp [applyOp, removeAttachedFile]
      rw [pathsUnique, this]
      exact h.filter _
  | removeImage n => simpa [applyOp, removeAttachedImage] using h

theorem runOps_pathsUnique (ops : List Op)
    (hops : ∀ op ∈ ops, op.isAutoAttach = false) (s : AssistantState)
    (h : pathsUnique s.attachedFiles) :
    pathsUnique (runOps ops s).attachedFiles := by
  induction ops generalizing s with
  | nil => simpa [runOps] using h
  | cons op ops ih =>
      rw [runOps_cons]
      exact ih (fun o ho => hops o (List.mem_cons_of_mem _ ho)) _
        (pathsUnique_applyOp op (hops op (List.mem_cons_self op ops)) s h)

/-- C1 (amended): under every operation sequence that contains no
auto-attach, the store never holds two file entries with the same
path; a manual file attachment with a path already present is rejected
and changes nothing, and one with a new path appends the entry. (The
original claim, closed under auto-attach as well, fails: see the
counterexample, where auto-attaching an already manually attached path
duplicates it.) -/
theorem claim_C1_unique_paths_no_auto (ops : List Op)
    (hops : ∀ op ∈ ops, op.isAutoAttach = false) :
    pathsUnique (runOps ops initState).attachedFiles ∧
    (∀ (s : AssistantState) (fp fn ext c : String),
      (∃ f ∈ s.attachedFiles, f.path = some fp) →
      handleFileAttachment fp fn ext c s = (s, false)) ∧
    (∀ (s : AssistantState) (fp fn ext c : String),
      (∀ f ∈ s.attachedFiles, f.path ≠ some fp) →
      handleFileAttachment fp fn ext c s =
        ({ s with attachedFiles := s.attachedFiles ++
            [{ name := fn, content := c,
               language := some (getLanguageFromExtension ext),
               path := some fp }] }, true)) := by
  refine ⟨?_, ?_, ?_⟩
  · exact runOps_pathsUnique ops hops initState (by simp [pathsUnique, initState])
  · intro s fp fn ext c hex
    obtain ⟨f, hf, hfp⟩ := hex
    have hany : s.attachedFiles.any (fun f => f.path == some fp) = true :=
      List.any_eq_true.mpr ⟨f, hf, by simp [hfp]⟩
    simp [handleFileAttachment, hany]
  · intro s fp fn ext c hnone
    have hany : ¬ s.attachedFiles.any (fun f => f.path == some fp) = true := by
      intro hcontra
      obtain ⟨f, hf, hfp⟩ := List.any_eq_true.mp hcontra
      exact hnone f hf (by simpa using hfp)
    simp [handleFileAttachment, hany]

theorem claim_C1_unique_paths_no_auto_witness :
    (∀ op ∈ ([Op.attachFile "/a" "a.py" ".py" "print(1)",
              Op.attachFile "/a" "a.py" ".py" "print(1)",
              Op.removeFile "/b"] : List Op), op.isAutoAttach = false) ∧
    pathsUnique (runOps [Op.attachFile "/a" "a.py" ".py" "print(1)",
        Op.attachFile "/a" "a.py" ".py" "print(1)",
        Op.removeFile "/b"] initState).attachedFiles :=
  ⟨by decide,
   (claim_C1_unique_paths_no_auto
      [Op.attachFile "/a" "a.py" ".py" "print(1)",
       Op.attachFile "/a" "a.py" ".py" "print(1)",
       Op.removeFile "/b"] (by decide)).1⟩

/-- C1 (counterexample): the claimed invariant fails once auto-attach
is included. Manually attaching path `/a` and then focusing the editor
on `/a` (auto-attach, with no previously tracked path) leaves two
entries with path `/a` in a reachable store. -/
theorem claim_C1_counterexample :
    Reachable (runOps [Op.attachFile "/a" "a.py" ".py" "print(1)",
        Op.autoAttach "/a" "a.py" "python" "print(1)"] initState) ∧
    ¬ pathsUnique (runOps [Op.attachFile "/a" "a.py" ".py" "print(1)",
        Op.autoAttach "/a" "a.py" "python" "print(1)"]
        initState).attachedFiles ∧
    ((runOps [Op.attachFile "/a" "a.py" ".py" "print(1)",
        Op.autoAttach "/a" "a.py" "python" "print(1)"]
        initState).attachedFiles.filter
      (fun f => f.path == some "/a")).length = 2 := by
  refine ⟨⟨_, rfl⟩, ?_, ?_⟩
  · unfold pathsUnique
    decide
  · decide

theorem trackedPresent_applyOp (op : Op) (s : AssistantState)
    (h : trackedPresent s) : trackedPresent (applyOp op s) := by
  cases op with
  | autoAttach fp fn lang c =>
      by_cases hc : s.currentActiveFile = some fp
      · simpa [applyOp, attachCurrentFile, hc] using h
      · intro p hp
        have hfp : p = fp := by
          have : some fp = some p := by
            simpa [applyOp, attachCurrentFile, hc] using hp
          exact (Option.some.inj this).symm
        rw [hfp]
        refine ⟨{ name := fn, content := c, language := some lang,
                  path := some fp }, ?_, rfl⟩
        simp [applyOp, attachCurrentFile, hc]
  | attachFile fp fn ext c =>
      by_cases hdup : s.attachedFiles.any (fun f => f.path == some fp)
      · simpa [applyOp, handleFileAttachment, hdup] using h
      · intro p hp
        have hp' : s.currentActiveFile = some p := by
          simpa [applyOp, handleFileAttachment, hdup] using hp
        obtain ⟨f, hf, hfp⟩ := h p hp'
        refine ⟨f, ?_, hfp⟩
        simp [applyOp, handleFileAttachment, hdup]
        exact Or.inl hf
  | attachImage m fn ext d =>
      by_cases hc : m ≤ s.attachedImages.length
      · simpa [applyOp, handleImageAttachment, hc] using h
      · intro p hp
        have hp' : s.currentActiveFile = some p := by
          simpa [applyOp, handleImageAttachment, hc] using hp
        obtain ⟨f, hf, hfp⟩ := h p hp'
        refine ⟨f, ?_, hfp⟩
        simpa [applyOp, handleImageAttachment, hc] using hf
  | removeFile fp =>
      intro p hp
      by_cases hc : s.currentActiveFile = some fp
      · simp [applyOp, removeAttachedFile, hc] at hp
      · have hp' : s.currentActiveFile = some p := by
          simpa [applyOp, removeAttachedFile, hc] using hp
        have hpq : p ≠ fp := by
          intro e
          exact hc (by rw [hp', e])
        obtain ⟨f, hf, hfp⟩ := h p hp'
        refine ⟨f, ?_, hfp⟩
        simp [applyOp, removeAttachedFile, List.mem_filter]
        exact ⟨hf, by simp [hfp, hpq]⟩
  | removeImage n =>
      intro p hp
      have hp' : s.currentActiveFile = some p := by
        simpa [applyOp, removeAttachedImage] using hp
      obtain ⟨f, hf, hfp⟩ := h p hp'
      exact ⟨f, by simpa [applyOp, removeAttachedImage] using hf, hfp⟩

theorem trackedPresent_runOps (ops : List Op) (s : AssistantState)
    (h : trackedPresent s) : trackedPresent (runOps ops s) := by
  induction ops generalizing s with
  | nil => simpa [runOps] using h
  | cons op ops ih =>
      rw [runOps_cons]
      exact ih _ (trackedPresent_applyOp op s h)

theorem reachable_trackedPresent (s : AssistantState) (hs : Reachable s) :
    trackedPresent s := by
  obtain ⟨ops, rfl⟩ := hs
  refine trackedPresent_runOps ops initState ?_
  intro p hp
  simp [initState] at hp

/-- C8: in a reachable state, removing the currently tracked
auto-attached path removes every entry with that path and clears the
tracked identity, so a subsequent focus change onto the same document
re-inserts the file; and removing a path not present in the store
leaves the state entirely unchanged. -/
theorem claim_C8_remove_tracked (s : AssistantState) (hs : Reachable s)
    (p fn lang c : String) :
    (s.currentActiveFile = some p →
      (removeAttachedFile p s).currentActiveFile = none ∧
      (∀ f ∈ (removeAttachedFile p s).attachedFiles, f.path ≠ some p) ∧
      (∃ f ∈ (attachCurrentFile p fn lang c
          (removeAttachedFile p s)).attachedFiles, f.path = some p)) ∧
    ((∀ f ∈ s.attachedFiles, f.path ≠ some p) →
      removeAttachedFile p s = s) := by
  constructor
  · intro hc
    refine ⟨by simp [removeAttachedFile, hc], ?_, ?_⟩
    · intro f hf
      simp [removeAttachedFile] at hf
      exact hf.2
    · have hne : ¬ (removeAttachedFile p s).currentActiveFile = some p := by
        simp [removeAttachedFile, hc]
      refine ⟨{ name := fn, content := c, language := some lang,
                path := some p }, ?_, rfl⟩
      simp [attachCurrentFile, hne]
  · intro hnone
    have hfilter : s.attachedFiles.filter (fun f => f.path != some p) =
        s.attachedFiles :=
      List.filter_eq_self.mpr (fun f hf => by simpa using hnone f hf)
    have htr : ¬ s.currentActiveFile = some p := by
      intro hc
      obtain ⟨f, hf, hfp⟩ := reachable_trackedPresent s hs p hc
      exact hnone f hf hfp
    cases s with
    | mk files imgs tracked =>
        simp only [removeAttachedFile] at *
        simp [hfilter, htr]

theorem claim_C8_remove_tracked_witness :
    ((runOps [Op.autoAttach "/a" "a.py" "python" "print(1)"]
        initState).currentActiveFile = some "/a") ∧
    (removeAttachedFile "/a" (runOps [Op.autoAttach "/a" "a.py" "python"
        "print(1)"] initState)).currentActiveFile = none ∧
    (∃ f ∈ (attachCurrentFile "/a" "a.py" "python" "print(1)"
        (removeAttachedFile "/a" (runOps [Op.autoAttach "/a" "a.py"
          "python" "print(1)"] initState))).attachedFiles,
      f.path = some "/a") := by
  have h := (claim_C8_remove_tracked
    (runOps [Op.autoAttach "/a" "a.py" "python" "print(1)"] initState)
    ⟨[Op.autoAttach "/a" "a.py" "python" "print(1)"], rfl⟩
    "/a" "a.py" "python" "print(1)").1 rfl
  exact ⟨rfl, h.1, h.2.2⟩

theorem claim_C9_image_duplicate_names_witness :
    dupSampleState.attachedImages.length < 3 ∧
    (∃ i ∈ dupSampleState.attachedImages, i.name = "i.png") ∧
    2 ≤ ((handleImageAttachment 3 "i.png" ".png" "D2"
          dupSampleState).1.attachedImages.filter
        (fun i => i.name == "i.png")).length :=
  ⟨by decide, by decide,
   (claim_C9_image_duplicate_names 3 "i.png" ".png" "D2" dupSampleState
      (by decide) (by decide)).2.2.1⟩
